import Mathlib

/-
Verification of krill (src/krill/krill.py) against its design spec.

The embedding below translates the pure core of krill into Lean:
  * TextExcerpter (_clip_left, _clip_right, get_excerpt)  — lines 94-132
  * StreamParser.get_feed_items                            — lines 71-90
  * StreamParser.get_tweets                                — lines 49-68
  * Application.update's add_item dedup loop               — lines 262-282
  * Application.update's sort of collected items           — lines 284-285
Python strings are modelled as List Char (String for the item records),
the regex classes \s and \S by Char.isWhitespace, and machine-external
collaborators (BeautifulSoup's get_text, feedparser, the regex engine's
first-match search, datetime.now) as explicit parameters.  Natural-number
subtraction coincides with the explicit max(_, 0) clamps the Python code
applies, as noted at each use.
-/

/-! ## TextExcerpter (krill.py lines 94-132) -/

/-- Whitespace test: the model of the regex character classes \s and \S used
by krill's TextExcerpter. -/
def isWS (c : Char) : Bool := c.isWhitespace

/-- Model of TextExcerpter._clip_left (lines 96-97):
re.sub("^\\S*\\s*", "", text, 1) removes the maximal leading run of
non-whitespace characters and then the maximal following whitespace run. -/
def clip_left (s : List Char) : List Char :=
  (s.dropWhile (fun c => !isWS c)).dropWhile (fun c => isWS c)

/-- Model of TextExcerpter._clip_right (lines 100-102):
re.sub("\\s*\\S*$", "", text, 1) removes the maximal trailing run of
non-whitespace characters together with the maximal whitespace run
immediately preceding it (the leftmost match of \s*\S*$ is exactly that
suffix).  Equivalently, _clip_left applied to the reversed text. -/
def clip_right (s : List Char) : List Char :=
  (clip_left s.reverse).reverse

/-- Result of TextExcerpter.get_excerpt.  The Python function normally
returns a 3-tuple (excerpt, clippedLeft, clippedRight); on the
"Matches are never clipped" path (line 120) it instead returns the bare
match string, so the two shapes are kept apart. -/
inductive ExcerptResult where
  | tuple (text : List Char) (clippedLeft clippedRight : Bool)
  | bare (text : List Char)
deriving DecidableEq

/-- The excerpt text carried by either result shape. -/
def resText : ExcerptResult → List Char
  | .tuple t _ _ => t
  | .bare t => t

/-- The clippedLeft flag (false for the bare-string return, which carries
no flags). -/
def resClipLeft : ExcerptResult → Bool
  | .tuple _ l _ => l
  | .bare _ => false

/-- The clippedRight flag (false for the bare-string return). -/
def resClipRight : ExcerptResult → Bool
  | .tuple _ _ r => r
  | .bare _ => false

/-- Python slice text[a:b] for natural bounds (clamps like Python does for
in-range nonnegative indices). -/
def pySlice (text : List Char) (a b : Nat) : List Char :=
  (text.drop a).take (b - a)

/-- The window [excerpt_start, excerpt_end) computed by get_excerpt lines
122-125 for a first match spanning [start, stop).  Natural subtraction
coincides with Python's explicit max(_, 0) clamps: line 122's
max(start - remaining_length // 2, 0) and line 125's
max(excerpt_end - max_length, 0); in line 123 every intermediate value is
nonnegative (start - excerpt_start <= remaining_length // 2), so natural
subtraction agrees with Python's int arithmetic there too. -/
def excerptSpan (text : List Char) (max_length start stop : Nat) : Nat × Nat :=
  let match_text := pySlice text start stop
  let remaining_length := max_length - match_text.length
  let excerpt_start0 := start - remaining_length / 2
  let excerpt_end := min (stop + (remaining_length - (start - excerpt_start0))) text.length
  (excerpt_end - max_length, excerpt_end)

/-- Lines 126-130 of get_excerpt: slice the window out of the text, then
word-clip the left edge when excerpt_start > 0 and the right edge when
excerpt_end < len(text). -/
def clipBoth (text : List Char) (excerpt_start excerpt_end : Nat) : List Char :=
  let excerpt0 := pySlice text excerpt_start excerpt_end
  let excerpt1 := if 0 < excerpt_start then clip_left excerpt0 else excerpt0
  if excerpt_end < text.length then clip_right excerpt1 else excerpt1

/-- The pattern-match branch of get_excerpt (lines 114-132), for a first
match spanning [start, stop): match_text = text[start:stop]; if
remaining_length <= 0 the bare match text is returned (line 120), else the
window is sliced and word-clipped at whichever edges cut into the text. -/
def excerptCore (text : List Char) (max_length start stop : Nat) : ExcerptResult :=
  let match_text := pySlice text start stop
  let remaining_length := max_length - match_text.length
  if remaining_length = 0 then
    .bare match_text
  else
    .tuple (clipBoth text (excerptSpan text max_length start stop).1
        (excerptSpan text max_length start stop).2)
      (decide (0 < (excerptSpan text max_length start stop).1))
      (decide ((excerptSpan text max_length start stop).2 < text.length))

/-- Model of TextExcerpter.get_excerpt (lines 107-132).  The compiled
pattern is external; it enters only through the span of its first match in
text, so the argument searchResult is none when no pattern was given or
the pattern does not match (line 111), and some (start, stop) for a first
match with match.span() = (start, stop). -/
def get_excerpt (text : List Char) (max_length : Nat)
    (searchResult : Option (Nat × Nat)) : ExcerptResult :=
  if text.length ≤ max_length then
    .tuple text false false
  else
    match searchResult with
    | none => .tuple (clip_right (text.take max_length)) false true
    | some (start, stop) => excerptCore text max_length start stop

/-- The word-boundary contract of an excerpt: the excerpt is a contiguous
slice of the original text, and at every edge whose clip flag is set the
character dropped right next to the (nonempty) excerpt is whitespace, so a
clipped edge never cuts a word. -/
def ClipOK (text e : List Char) (cl cr : Bool) : Prop :=
  ∃ pre suf, text = pre ++ e ++ suf ∧
    (cl = true → e ≠ [] → ∃ p c, pre = p ++ [c] ∧ isWS c = true) ∧
    (cr = true → e ≠ [] → ∃ c q, suf = c :: q ∧ isWS c = true)

/-- Substring containment (at any position): big = u ++ small ++ v. -/
def containsSlice (big small : List Char) : Prop :=
  ∃ u v, big = u ++ small ++ v

/-! ## Item records and StreamParser (krill.py lines 35-90) -/

/-- StreamItem (line 35): namedtuple("StreamItem",
["source", "time", "title", "text", "link"]).  Timestamps are modelled as
epoch integers; optional fields as Option. -/
structure StreamItem where
  source : String
  time : Option Int
  title : Option String
  text : Option String
  link : Option String
deriving DecidableEq

/-- One feed entry as feedparser hands it to get_feed_items: each field is
present or absent; description carries the raw HTML that line 80 pushes
through _html_to_text. -/
structure FeedEntry where
  published : Option Int
  title : Option String
  description : Option String
  link : Option String
deriving DecidableEq

/-- A parsed feed: the feed's own optional title element plus its entries. -/
structure FeedData where
  title : Option String
  entries : List FeedEntry
deriving DecidableEq

/-- Python truthiness of an optional string: None and the empty string are
falsy, every other string is truthy.  This is the test line 89
(`if title or text or link`) applies. -/
def truthy : Option String → Bool
  | none => false
  | some s => !(s == "")

/-- Lines 83-86 of get_feed_items: if text is None and title is not None,
move the title into text and clear the title.  Returns (title, text). -/
def applyFallback (title text : Option String) : Option String × Option String :=
  if text.isNone && title.isSome then (none, title) else (title, text)

/-- Lines 76-90 of get_feed_items, for one entry.  htmlToText stands for
the external _html_to_text (BeautifulSoup) transformation applied to the
description (line 80); feedTitle is the display name computed at line 74.
Returns none when line 89's truthiness test rejects the entry. -/
def getFeedItem (htmlToText : String → String) (feedTitle : String)
    (e : FeedEntry) : Option StreamItem :=
  let time := e.published
  let text := e.description.map htmlToText
  let tt := applyFallback e.title text
  let link := e.link
  if truthy tt.1 || truthy tt.2 || truthy link then
    some ⟨feedTitle, time, tt.1, tt.2, link⟩
  else
    none

/-- Model of StreamParser.get_feed_items (lines 71-90): the display name is
the feed's title element if present — even an empty one — and otherwise
the source url (line 74, feed_data.feed.get("title", url)); each entry is
turned into at most one StreamItem. -/
def getFeedItems (htmlToText : String → String) (feed : FeedData)
    (url : String) : List StreamItem :=
  feed.entries.filterMap (getFeedItem htmlToText (feed.title.getD url))

/-- One tweet post block as get_tweets (lines 49-68) reads it.  A field is
none when the corresponding required sub-element or attribute is missing
from the markup, in which case the Python code raises (AttributeError /
TypeError) at the corresponding lookup instead of skipping the post:
fullname from header.find("strong", class_="fullname").string, username
from header.find("span", class_="username").b.string, timestampData from
header.find("span", class_="_timestamp")["data-time"], timestampHref from
header.find("a", class_="tweet-timestamp")["href"].  body is the post's
markup handed to _html_to_text after ellipsis removal. -/
structure TweetPost where
  fullname : Option String
  username : Option String
  timestampData : Option Int
  timestampHref : Option String
  body : String
deriving DecidableEq

/-- Line 64: drop every U+2026 ellipsis character Twitter appended. -/
def removeEllipsis (s : String) : String :=
  ⟨s.data.filter (fun c => c ≠ Char.ofNat 0x2026)⟩

/-- The item one well-formed post block yields (lines 55-68); none when a
required sub-element is missing (which in Python raises instead). -/
def getTweetItem (htmlToText : String → String) (p : TweetPost) :
    Option StreamItem :=
  match p.fullname, p.username, p.timestampData, p.timestampHref with
  | some name, some username, some time, some href =>
    some ⟨name ++ " (@" ++ username ++ ")", some time, none,
      some (htmlToText (removeEllipsis p.body)),
      some ("https://twitter.com" ++ href)⟩
  | _, _, _, _ => none

/-- Model of StreamParser.get_tweets (lines 49-68) as consumed by the
update loop: the generator yields one item per post block until it hits a
post with a missing required sub-element, where the Python code raises an
uncaught exception; the Bool records that abort.  Posts after the failing
one are never reached. -/
def getTweets (htmlToText : String → String) :
    List TweetPost → List StreamItem × Bool
  | [] => ([], false)
  | p :: rest =>
    match getTweetItem htmlToText p with
    | some item =>
      let tail := getTweets htmlToText rest
      (item :: tail.1, tail.2)
    | none => ([], true)

/-! ## Dedup loop and sorting (krill.py lines 262-285) -/

/-- The identity key add_item computes at line 264: (item.source, item.link). -/
def itemId (i : StreamItem) : String × Option String :=
  (i.source, i.link)

/-- Model of the add_item loop of Application.update (lines 262-282):
known is the _known_items set carried across cycles (line 137), batch the
stream of items reaching add_item this cycle, in order.  Returns the
cycle's output list (line 269's items, in append order) and the updated
known set. -/
def processItems (known : List (String × Option String)) :
    List StreamItem → List StreamItem × List (String × Option String)
  | [] => ([], known)
  | i :: rest =>
    if itemId i ∈ known then
      processItems known rest
    else
      let tail := processItems (itemId i :: known) rest
      (i :: tail.1, tail.2)

/-- The sort key of line 285: datetime.now() if the item has no timestamp,
else the timestamp.  now stands for the clock value at sort time. -/
def sortKey (now : Int) (i : StreamItem) : Int :=
  i.time.getD now

/-- Line 284-285: items.sort(key=...) — a comparison sort by sortKey
(ascending), modelled by insertion sort. -/
def sortItems (now : Int) (l : List StreamItem) : List StreamItem :=
  List.insertionSort (fun a b => sortKey now a ≤ sortKey now b) l

/-! ## Concrete inputs used by counterexamples, failing inputs and witnesses -/

/-- The text of claim C1's failing input: ten characters, with a pattern
whose first match is text[0:6] = "abcdef", against max_length = 4. -/
def c1Text : List Char := ['a', 'b', 'c', 'd', 'e', 'f', 'g', 'h', 'i', 'j']

/-- Claim C10's counterexample text: "xxxxxxxxxxABCD yyy" (18 characters);
the pattern's first match is "ABCD" at span (10, 14). -/
def c10Text : List Char :=
  ['x', 'x', 'x', 'x', 'x', 'x', 'x', 'x', 'x', 'x', 'A', 'B', 'C', 'D',
   ' ', 'y', 'y', 'y']

/-- The first match of claim C10's counterexample: "ABCD". -/
def c10Match : List Char := ['A', 'B', 'C', 'D']

/-- Claim C4's counterexample entry: a title element that is present but
empty, no description, no link. -/
def c4Entry : FeedEntry := ⟨none, some "", none, none⟩

/-- Claim C5's witness entry: a title, no description, and a link. -/
def c5Entry : FeedEntry := ⟨none, some "hi", none, some "l"⟩

/-- The item c5Entry yields: the title has moved into the text field. -/
def c5Item : StreamItem := ⟨"S", none, none, some "hi", some "l"⟩

/-- Claim C7's counterexample feed: a declared — but empty — title, and
one entry that survives (it has a link). -/
def c7Feed : FeedData := ⟨some "", [⟨none, none, none, some "l"⟩]⟩

/-- Claim C6's malformed post: the fullname sub-element is missing. -/
def c6Bad : TweetPost := ⟨none, some "u", some 5, some "/p", "b"⟩

/-- Claim C6's well-formed post, placed after the malformed one. -/
def c6Good : TweetPost := ⟨some "N", some "u", some 7, some "/q", "t"⟩

/-- A first cycle's worth of known keys for the C3 witness. -/
def c3Known : List (String × Option String) := [("S", some "old")]

/-- The C3 witness batch: a repeat of a prior cycle's item, then a fresh
item, then a same-batch duplicate of the fresh item. -/
def c3Batch : List StreamItem :=
  [⟨"S", none, none, some "dup", some "old"⟩,
   ⟨"S", some 3, none, some "new", some "n"⟩,
   ⟨"S", some 9, none, some "new again", some "n"⟩]

/-- The fresh item of c3Batch (the only one that may be printed). -/
def c3Fresh : StreamItem := ⟨"S", some 3, none, some "new", some "n"⟩

/-- Items for the C8 witness: one without a timestamp, one stamped 20. -/
def c8NoTime : StreamItem := ⟨"S", none, none, some "a", none⟩

/-- The explicitly timestamped C8 witness item. -/
def c8Late : StreamItem := ⟨"S", some 20, none, some "b", none⟩

/-! ## Helper lemmas about word clipping and slices -/

/-- The head of dropWhile fails the predicate. -/
theorem dropWhile_head_false (p : Char → Bool) (l : List Char) (c : Char)
    (rest : List Char) (h : l.dropWhile p = c :: rest) : p c = false := by
  induction l with
  | nil => simp at h
  | cons a t ih =>
    rw [List.dropWhile_cons] at h
    by_cases hpa : p a
    · rw [if_pos hpa] at h
      exact ih h
    · rw [if_neg hpa] at h
      injection h with h1 _
      rw [← h1]
      simpa using hpa

/-- clip_left removes a (possibly empty) prefix, and when anything is left
the last removed character is whitespace: a left clip never ends flush
against a word. -/
theorem clip_left_decomp (s : List Char) :
    ∃ d, s = d ++ clip_left s ∧
      (clip_left s ≠ [] → ∃ p c, d = p ++ [c] ∧ isWS c = true) := by
  refine ⟨s.takeWhile (fun c => !isWS c) ++
      (s.dropWhile (fun c => !isWS c)).takeWhile (fun c => isWS c), ?_, ?_⟩
  · conv_lhs => rw [← List.takeWhile_append_dropWhile (p := fun c => !isWS c) (l := s)]
    rw [List.append_assoc]
    congr 1
    unfold clip_left
    rw [List.takeWhile_append_dropWhile]
  · intro hne
    have ht : s.dropWhile (fun c => !isWS c) ≠ [] := by
      intro h0
      apply hne
      unfold clip_left
      rw [h0]
      rfl
    obtain ⟨c, rest, hcr⟩ := List.exists_cons_of_ne_nil ht
    have hc : isWS c = true := by
      have := dropWhile_head_false (fun c => !isWS c) s c rest hcr
      simpa using this
    have htw : (s.dropWhile (fun c => !isWS c)).takeWhile (fun c => isWS c)
        = c :: rest.takeWhile (fun c => isWS c) := by
      rw [hcr, List.takeWhile_cons, if_pos hc]
    have hne2 : (s.dropWhile (fun c => !isWS c)).takeWhile (fun c => isWS c) ≠ [] := by
      rw [htw]
      simp
    refine ⟨s.takeWhile (fun c => !isWS c) ++
        ((s.dropWhile (fun c => !isWS c)).takeWhile (fun c => isWS c)).dropLast,
      ((s.dropWhile (fun c => !isWS c)).takeWhile (fun c => isWS c)).getLast hne2,
      ?_, ?_⟩
    · rw [List.append_assoc, List.dropLast_append_getLast hne2]
    · exact List.mem_takeWhile_imp (List.getLast_mem hne2)

/-- clip_right removes a (possibly empty) suffix, and when anything is left
the first removed character is whitespace: a right clip never starts flush
against a word. -/
theorem clip_right_decomp (s : List Char) :
    ∃ d, s = clip_right s ++ d ∧
      (clip_right s ≠ [] → ∃ c q, d = c :: q ∧ isWS c = true) := by
  obtain ⟨d, hd, hb⟩ := clip_left_decomp s.reverse
  refine ⟨d.reverse, ?_, ?_⟩
  · have h2 := congrArg List.reverse hd
    rw [List.reverse_reverse, List.reverse_append] at h2
    rw [clip_right]
    exact h2
  · intro hne
    have hne2 : clip_left s.reverse ≠ [] := by
      intro h0
      apply hne
      rw [clip_right, h0]
      rfl
    obtain ⟨p, c, hpc, hws⟩ := hb hne2
    refine ⟨c, p.reverse, ?_, hws⟩
    rw [hpc, List.reverse_append]
    rfl

/-- Clipping the left edge never lengthens the text. -/
theorem clip_left_length (s : List Char) : (clip_left s).length ≤ s.length := by
  obtain ⟨d, hd, -⟩ := clip_left_decomp s
  conv_rhs => rw [hd]
  simp

/-- Clipping the right edge never lengthens the text. -/
theorem clip_right_length (s : List Char) : (clip_right s).length ≤ s.length := by
  obtain ⟨d, hd, -⟩ := clip_right_decomp s
  conv_rhs => rw [hd]
  simp

/-- Length of a valid Python slice. -/
theorem pySlice_length_eq (text : List Char) (a b : Nat) (h1 : a ≤ b)
    (h2 : b ≤ text.length) : (pySlice text a b).length = b - a := by
  simp [pySlice]
  omega

/-- A valid slice splits the text into prefix, slice and suffix. -/
theorem pySlice_decomp (text : List Char) (a b : Nat) (h1 : a ≤ b)
    (h2 : b ≤ text.length) :
    text = text.take a ++ pySlice text a b ++ text.drop b := by
  have h4 : (text.drop a).drop (b - a) = text.drop b := by
    rw [List.drop_drop]
    congr 1
    omega
  have h5 : text.drop a = pySlice text a b ++ text.drop b := by
    rw [pySlice, ← h4]
    exact (List.take_append_drop _ _).symm
  rw [List.append_assoc, ← h5, List.take_append_drop]

/-- Bounds of the excerpt window: start <= end <= len(text), and the window
is at most max_length wide. -/
theorem excerptSpan_bounds (text : List Char) (max_length a b : Nat) :
    (excerptSpan text max_length a b).1 ≤ (excerptSpan text max_length a b).2 ∧
    (excerptSpan text max_length a b).2 ≤ text.length ∧
    (excerptSpan text max_length a b).2 - (excerptSpan text max_length a b).1
      ≤ max_length := by
  simp only [excerptSpan]
  refine ⟨Nat.sub_le _ _, Nat.min_le_right _ _, ?_⟩
  omega

/-- get_excerpt on text within budget (line 108-109). -/
theorem ge_short (text : List Char) (max_length : Nat)
    (sr : Option (Nat × Nat)) (h : text.length ≤ max_length) :
    get_excerpt text max_length sr = .tuple text false false := by
  unfold get_excerpt
  simp [h]

/-- get_excerpt on overlong text without a match (line 111-112). -/
theorem ge_long_none (text : List Char) (max_length : Nat)
    (h : ¬ text.length ≤ max_length) :
    get_excerpt text max_length none
      = .tuple (clip_right (text.take max_length)) false true := by
  unfold get_excerpt
  rw [if_neg h]

/-- get_excerpt on overlong text with a first match (lines 114-132). -/
theorem ge_long_some (text : List Char) (max_length a b : Nat)
    (h : ¬ text.length ≤ max_length) :
    get_excerpt text max_length (some (a, b)) = excerptCore text max_length a b := by
  unfold get_excerpt
  rw [if_neg h]

/-- The bare-string branch of the match case (lines 118-120). -/
theorem excerptCore_bare (text : List Char) (max_length a b : Nat)
    (h : max_length - (pySlice text a b).length = 0) :
    excerptCore text max_length a b = .bare (pySlice text a b) := by
  unfold excerptCore
  rw [if_pos h]

/-- The clipping branch of the match case (lines 122-132). -/
theorem excerptCore_tuple (text : List Char) (max_length a b : Nat)
    (h : ¬ max_length - (pySlice text a b).length = 0) :
    excerptCore text max_length a b
      = .tuple (clipBoth text (excerptSpan text max_length a b).1
          (excerptSpan text max_length a b).2)
        (decide (0 < (excerptSpan text max_length a b).1))
        (decide ((excerptSpan text max_length a b).2 < text.length)) := by
  unfold excerptCore
  rw [if_neg h]

/-! ## Claims C9, C1 -/

/-- Claim C9: for every text t and maxLength with len(t) <= maxLength, and
every optional pattern, get_excerpt returns exactly (t, false, false). -/
theorem c9_short_text_unchanged (text : List Char) (max_length : Nat)
    (sr : Option (Nat × Nat)) (h : text.length ≤ max_length) :
    get_excerpt text max_length sr = ExcerptResult.tuple text false false :=
  ge_short text max_length sr h

/-- Witness for C9 at the concrete input "hi", budget 5, no pattern. -/
theorem c9_short_text_unchanged_witness :
    get_excerpt ['h', 'i'] 5 none = ExcerptResult.tuple ['h', 'i'] false false :=
  c9_short_text_unchanged ['h', 'i'] 5 none (by decide)

/-- Claim C1: when the first match's length (6) is >= maxLength (4), the
spec says get_excerpt returns the 3-tuple (matchText, false, false); the
code (line 120) instead returns the bare match string with no clip flags
at all, which its own caller (line 212) then fails to unpack as a
3-tuple.  This theorem evaluates the code at the failing input. -/
theorem c1_match_over_budget_returns_bare_string :
    get_excerpt c1Text 4 (some (0, 6)) =
      ExcerptResult.bare ['a', 'b', 'c', 'd', 'e', 'f'] := by
  decide

/-! ## Claim C2 -/

/-- Claim C2: whenever no match of the pattern in the text is longer than
maxLength, the returned excerpt has length <= maxLength, and every edge
whose clip flag is set sits next to dropped whitespace — a clipped excerpt
never starts or ends adjacent to a dropped non-whitespace character. -/
theorem c2_bounded_and_word_safe (text : List Char) (max_length : Nat)
    (sr : Option (Nat × Nat))
    (hval : ∀ a b, sr = some (a, b) → a ≤ b ∧ b ≤ text.length)
    (hbudget : ∀ a b, sr = some (a, b) → b - a ≤ max_length) :
    (resText (get_excerpt text max_length sr)).length ≤ max_length ∧
    ClipOK text (resText (get_excerpt text max_length sr))
      (resClipLeft (get_excerpt text max_length sr))
      (resClipRight (get_excerpt text max_length sr)) := by
  by_cases hlen : text.length ≤ max_length
  · rw [ge_short text max_length sr hlen]
    simp only [resText, resClipLeft, resClipRight]
    exact ⟨hlen, [], [], by simp, by simp, by simp⟩
  · cases sr with
    | none =>
      rw [ge_long_none text max_length hlen]
      simp only [resText, resClipLeft, resClipRight]
      obtain ⟨d, hd, hb⟩ := clip_right_decomp (text.take max_length)
      constructor
      · calc (clip_right (text.take max_length)).length
            ≤ (text.take max_length).length := clip_right_length _
          _ ≤ max_length := by simp
      · refine ⟨[], d ++ text.drop max_length, ?_, by simp, ?_⟩
        · calc text = text.take max_length ++ text.drop max_length :=
              (List.take_append_drop _ _).symm
            _ = (clip_right (text.take max_length) ++ d) ++ text.drop max_length :=
              congrArg (fun z => z ++ text.drop max_length) hd
            _ = [] ++ clip_right (text.take max_length) ++ (d ++ text.drop max_length) := by
              simp [List.append_assoc]
        · intro _ hne
          obtain ⟨c, q, hcq, hws⟩ := hb hne
          refine ⟨c, q ++ text.drop max_length, ?_, hws⟩
          rw [hcq]
          rfl
    | some ab =>
      obtain ⟨a, b⟩ := ab
      obtain ⟨hab, hbl⟩ := hval a b rfl
      have hba := hbudget a b rfl
      rw [ge_long_some text max_length a b hlen]
      have hml : (pySlice text a b).length = b - a := pySlice_length_eq text a b hab hbl
      by_cases hz : max_length - (pySlice text a b).length = 0
      · rw [excerptCore_bare text max_length a b hz]
        simp only [resText, resClipLeft, resClipRight]
        refine ⟨?_, text.take a, text.drop b, pySlice_decomp text a b hab hbl,
          by simp, by simp⟩
        rw [hml]
        omega
      · rw [excerptCore_tuple text max_length a b hz]
        simp only [resText, resClipLeft, resClipRight, clipBoth]
        obtain ⟨hse, hel, hdiff⟩ := excerptSpan_bounds text max_length a b
        have hBlen := pySlice_length_eq text (excerptSpan text max_length a b).1
          (excerptSpan text max_length a b).2 hse hel
        have hB := pySlice_decomp text (excerptSpan text max_length a b).1
          (excerptSpan text max_length a b).2 hse hel
        set es := (excerptSpan text max_length a b).1 with hesd
        set ee := (excerptSpan text max_length a b).2 with heed
        set B := pySlice text es ee with hBd
        by_cases hL : 0 < es <;> by_cases hR : ee < text.length
        · rw [if_pos hL, if_pos hR, decide_eq_true hL, decide_eq_true hR]
          obtain ⟨d1, hd1, hb1⟩ := clip_left_decomp B
          obtain ⟨d2, hd2, hb2⟩ := clip_right_decomp (clip_left B)
          constructor
          · calc (clip_right (clip_left B)).length
                ≤ (clip_left B).length := clip_right_length _
              _ ≤ B.length := clip_left_length _
              _ = ee - es := hBlen
              _ ≤ max_length := hdiff
          · refine ⟨text.take es ++ d1, d2 ++ text.drop ee, ?_, ?_, ?_⟩
            · calc text = text.take es ++ B ++ text.drop ee := hB
                _ = text.take es ++ (d1 ++ clip_left B) ++ text.drop ee := by
                  rw [← hd1]
                _ = (text.take es ++ d1) ++ clip_left B ++ text.drop ee := by
                  simp [List.append_assoc]
                _ = (text.take es ++ d1) ++ (clip_right (clip_left B) ++ d2)
                      ++ text.drop ee := by rw [← hd2]
                _ = (text.take es ++ d1) ++ clip_right (clip_left B)
                      ++ (d2 ++ text.drop ee) := by simp [List.append_assoc]
            · intro _ hne
              have hne1 : clip_left B ≠ [] := by
                intro h0
                apply hne
                rw [h0]
                rfl
              obtain ⟨p, c, hpc, hws⟩ := hb1 hne1
              refine ⟨text.take es ++ p, c, ?_, hws⟩
              rw [hpc, List.append_assoc]
            · intro _ hne
              obtain ⟨c, q, hcq, hws⟩ := hb2 hne
              refine ⟨c, q ++ text.drop ee, ?_, hws⟩
              rw [hcq]
              rfl
        · rw [if_pos hL, if_neg hR, decide_eq_true hL, decide_eq_false hR]
          obtain ⟨d1, hd1, hb1⟩ := clip_left_decomp B
          constructor
          · calc (clip_left B).length ≤ B.length := clip_left_length _
              _ = ee - es := hBlen
              _ ≤ max_length := hdiff
          · refine ⟨text.take es ++ d1, text.drop ee, ?_, ?_, by simp⟩
            · calc text = text.take es ++ B ++ text.drop ee := hB
                _ = text.take es ++ (d1 ++ clip_left B) ++ text.drop ee := by
                  rw [← hd1]
                _ = (text.take es ++ d1) ++ clip_left B ++ text.drop ee := by
                  simp [List.append_assoc]
            · intro _ hne
              obtain ⟨p, c, hpc, hws⟩ := hb1 hne
              refine ⟨text.take es ++ p, c, ?_, hws⟩
              rw [hpc, List.append_assoc]
        · rw [if_neg hL, if_pos hR, decide_eq_false hL, decide_eq_true hR]
          obtain ⟨d2, hd2, hb2⟩ := clip_right_decomp B
          constructor
          · calc (clip_right B).length ≤ B.length := clip_right_length _
              _ = ee - es := hBlen
              _ ≤ max_length := hdiff
          · refine ⟨text.take es, d2 ++ text.drop ee, ?_, by simp, ?_⟩
            · calc text = text.take es ++ B ++ text.drop ee := hB
                _ = text.take es ++ (clip_right B ++ d2) ++ text.drop ee := by
                  rw [← hd2]
                _ = text.take es ++ clip_right B ++ (d2 ++ text.drop ee) := by
                  simp [List.append_assoc]
            · intro _ hne
              obtain ⟨c, q, hcq, hws⟩ := hb2 hne
              refine ⟨c, q ++ text.drop ee, ?_, hws⟩
              rw [hcq]
              rfl
        · rw [if_neg hL, if_neg hR, decide_eq_false hL, decide_eq_false hR]
          constructor
          · calc B.length = ee - es := hBlen
              _ ≤ max_length := hdiff
          · exact ⟨text.take es, text.drop ee, hB, by simp, by simp⟩

/-- Witness for C2 at the concrete input "ab ccc", budget 4, no pattern:
the excerpt is "ab", right-clipped at the whitespace boundary. -/
theorem c2_bounded_and_word_safe_witness :
    (resText (get_excerpt ['a', 'b', ' ', 'c', 'c', 'c'] 4 none)).length ≤ 4 ∧
    ClipOK ['a', 'b', ' ', 'c', 'c', 'c']
      (resText (get_excerpt ['a', 'b', ' ', 'c', 'c', 'c'] 4 none))
      (resClipLeft (get_excerpt ['a', 'b', ' ', 'c', 'c', 'c'] 4 none))
      (resClipRight (get_excerpt ['a', 'b', ' ', 'c', 'c', 'c'] 4 none)) :=
  c2_bounded_and_word_safe ['a', 'b', ' ', 'c', 'c', 'c'] 4 none
    (fun _ _ h => Option.noConfusion h) (fun _ _ h => Option.noConfusion h)

/-! ## Claim C10 -/

/-- A slice over adjacent valid bounds splits at any midpoint. -/
theorem pySlice_split (text : List Char) (x y z : Nat) (hxy : x ≤ y)
    (hyz : y ≤ z) : pySlice text x z = pySlice text x y ++ pySlice text y z := by
  unfold pySlice
  have h : z - x = (y - x) + (z - y) := by omega
  have hdd : (text.drop x).drop (y - x) = text.drop y := by
    rw [List.drop_drop]
    congr 1
    omega
  rw [h, List.take_add, hdd]

/-- Claim C10 counterexample: text "xxxxxxxxxxABCD yyy" with budget 8 and
first match "ABCD" at span (10, 14): the match length 4 is below the
budget, yet the returned excerpt is empty with both clip flags set — the
left word-clip swallowed "xxABCD" and the right word-clip swallowed "y" —
so the excerpt does not contain the match text at all. -/
theorem c10_match_clipped_out_of_excerpt :
    get_excerpt c10Text 8 (some (10, 14)) = ExcerptResult.tuple [] true true ∧
    ¬ containsSlice (resText (get_excerpt c10Text 8 (some (10, 14)))) c10Match := by
  refine ⟨by decide, ?_⟩
  rintro ⟨u, v, h⟩
  have h2 : (resText (get_excerpt c10Text 8 (some (10, 14)))).length = 0 := by decide
  rw [h] at h2
  simp [c10Match] at h2

/-- Claim C10 amended: when the first match is shorter than the budget,
the pre-clipping window [excerpt_start, excerpt_end) contains the whole
match at its original position; only the subsequent word-boundary clipping
of lines 127-130 can then drop match characters (as it does whenever the
window edge falls inside the same word as the match). -/
theorem c10_amended_window_contains_match (text : List Char)
    (max_length a b : Nat) (h1 : a ≤ b) (h2 : b ≤ text.length)
    (h3 : b - a < max_length) :
    (excerptSpan text max_length a b).1 ≤ a ∧
    b ≤ (excerptSpan text max_length a b).2 ∧
    pySlice text (excerptSpan text max_length a b).1
        (excerptSpan text max_length a b).2
      = pySlice text (excerptSpan text max_length a b).1 a
        ++ pySlice text a b
        ++ pySlice text b (excerptSpan text max_length a b).2 := by
  have hml : (pySlice text a b).length = b - a := pySlice_length_eq text a b h1 h2
  have hesa : (excerptSpan text max_length a b).1 ≤ a := by
    simp only [excerptSpan, hml]
    omega
  have hbee : b ≤ (excerptSpan text max_length a b).2 := by
    simp only [excerptSpan, hml]
    omega
  refine ⟨hesa, hbee, ?_⟩
  rw [pySlice_split text (excerptSpan text max_length a b).1 a
      (excerptSpan text max_length a b).2 hesa (le_trans h1 hbee),
    pySlice_split text a b (excerptSpan text max_length a b).2 h1 hbee,
    List.append_assoc]

/-- Witness for the amended C10 at the C10 counterexample input itself:
the window (8, 16) does contain "ABCD" at its original position. -/
theorem c10_amended_window_contains_match_witness :
    (excerptSpan c10Text 8 10 14).1 ≤ 10 ∧
    14 ≤ (excerptSpan c10Text 8 10 14).2 ∧
    pySlice c10Text (excerptSpan c10Text 8 10 14).1 (excerptSpan c10Text 8 10 14).2
      = pySlice c10Text (excerptSpan c10Text 8 10 14).1 10
        ++ pySlice c10Text 10 14
        ++ pySlice c10Text 14 (excerptSpan c10Text 8 10 14).2 :=
  c10_amended_window_contains_match c10Text 8 10 14 (by decide) (by decide) (by decide)

/-! ## Claims C4, C5, C7 -/

/-- Claim C4 counterexample: an entry whose title element is present but
empty (and no description, no link).  After the fallback the text field is
present (some "") — so the claim's presence test holds — yet line 89's
truthiness test rejects the entry and no Item is yielded. -/
theorem c4_present_empty_title_yields_nothing :
    (applyFallback c4Entry.title (c4Entry.description.map id)).2 ≠ none ∧
    getFeedItem id "S" c4Entry = none := by
  constructor
  · decide
  · decide

/-- Claim C4 amended: the feed-variant extractor yields an Item for an
entry iff at least one of the post-fallback title, text, link fields is
truthy — present and non-empty, Python's truthiness; an entry whose three
fields are all absent or empty strings yields no Item. -/
theorem c4_amended_item_iff_truthy (htmlToText : String → String)
    (feedTitle : String) (e : FeedEntry) :
    (getFeedItem htmlToText feedTitle e).isSome
      = (truthy (applyFallback e.title (e.description.map htmlToText)).1
         || truthy (applyFallback e.title (e.description.map htmlToText)).2
         || truthy e.link) := by
  cases h : truthy (applyFallback e.title (e.description.map htmlToText)).1
      || truthy (applyFallback e.title (e.description.map htmlToText)).2
      || truthy e.link
  · simp [getFeedItem, h]
  · simp [getFeedItem, h]

/-- Claim C5: an entry with a title but no description has its title moved
into the text field (lines 83-86), so any Item it yields carries
text = the original title and title = None. -/
theorem c5_title_becomes_text (htmlToText : String → String)
    (feedTitle t : String) (e : FeedEntry) (ht : e.title = some t)
    (hd : e.description = none) (i : StreamItem)
    (hi : getFeedItem htmlToText feedTitle e = some i) :
    i.text = some t ∧ i.title = none := by
  have hmap : e.description.map htmlToText = none := by
    rw [hd]
    rfl
  have hfb : applyFallback e.title (e.description.map htmlToText) = (none, some t) := by
    rw [hmap, ht]
    rfl
  rw [getFeedItem, hfb] at hi
  split at hi
  · cases hi
    exact ⟨rfl, rfl⟩
  · cases hi

/-- Witness for C5 at a concrete entry with title "hi", no description. -/
theorem c5_title_becomes_text_witness :
    c5Item.text = some "hi" ∧ c5Item.title = none :=
  c5_title_becomes_text id "S" "hi" c5Entry rfl rfl c5Item (by decide)

/-- Every item getFeedItem yields carries the computed feed title as its
source. -/
theorem getFeedItem_source (htmlToText : String → String) (ft : String)
    (e : FeedEntry) (i : StreamItem)
    (h : getFeedItem htmlToText ft e = some i) : i.source = ft := by
  rw [getFeedItem] at h
  split at h
  · cases h
    rfl
  · cases h

/-- Every item getTweetItem yields has the source "name (@username)",
which is at least three characters long. -/
theorem getTweetItem_source_pos (htmlToText : String → String)
    (p : TweetPost) (i : StreamItem) (h : getTweetItem htmlToText p = some i) :
    0 < i.source.length := by
  rcases p with ⟨fn, un, td, th, body⟩
  rcases fn with _ | n <;> rcases un with _ | u <;> rcases td with _ | tv <;>
    rcases th with _ | hr <;> simp [getTweetItem] at h
  subst h
  show 0 < (n ++ " (@" ++ u ++ ")").length
  have h1 : (n ++ " (@" ++ u ++ ")").length
      = n.length + (" (@" : String).length + u.length + (")" : String).length := by
    simp [String.length_append]
  have h2 : (" (@" : String).length = 3 := by decide
  omega

/-- Every tweet item emitted before an abort satisfies any property of
getTweetItem outputs; specialised to positive source length. -/
theorem getTweets_source_pos (htmlToText : String → String)
    (posts : List TweetPost) :
    ∀ i ∈ (getTweets htmlToText posts).1, 0 < i.source.length := by
  induction posts with
  | nil => simp [getTweets]
  | cons p rest ih =>
    cases hp : getTweetItem htmlToText p with
    | none => simp [getTweets, hp]
    | some item =>
      simp only [getTweets, hp]
      intro i hi
      rcases List.mem_cons.mp hi with rfl | hi'
      · exact getTweetItem_source_pos htmlToText p i hp
      · exact ih i hi'

/-- Claim C7 counterexample: a feed that declares an empty title element.
Line 74's feed_data.feed.get("title", url) takes the declared title even
when it is the empty string, so the emitted item's source is "" — an
empty string, against the claim that source is never empty. -/
theorem c7_empty_feed_title_gives_empty_source :
    ∃ i, i ∈ getFeedItems id c7Feed "u" ∧ i.source = "" := by
  refine ⟨⟨"", none, none, none, some "l"⟩, ?_, rfl⟩
  decide

/-- Claim C7 amended: the feed-variant source is the feed's declared title
when present — even when it is empty, making an empty source possible —
and the literal source URL only when the title is absent; the
microblog-variant source "name (@username)" is always non-empty. -/
theorem c7_amended_source_rule :
    (∀ (htmlToText : String → String) (feed : FeedData) (url : String)
        (i : StreamItem), i ∈ getFeedItems htmlToText feed url →
        i.source = feed.title.getD url) ∧
    (∀ (htmlToText : String → String) (posts : List TweetPost)
        (i : StreamItem), i ∈ (getTweets htmlToText posts).1 →
        0 < i.source.length) := by
  constructor
  · intro htmlToText feed url i hi
    rw [getFeedItems] at hi
    obtain ⟨e, _, hei⟩ := List.mem_filterMap.mp hi
    exact getFeedItem_source htmlToText (feed.title.getD url) e i hei
  · intro htmlToText posts i hi
    exact getTweets_source_pos htmlToText posts i hi

/-! ## Claim C6 -/

/-- Claim C6 counterexample: a batch of two posts where the first post
lacks its fullname sub-element and the second is well-formed.  get_tweets
raises at the first post (AttributeError on line 55 — there is no
try/except anywhere in it), so the batch aborts: the well-formed second
post, although extractable on its own, is never emitted. -/
theorem c6_malformed_post_aborts_batch :
    getTweets id [c6Bad, c6Good] = ([], true) ∧
    (getTweetItem id c6Good).isSome = true := by
  constructor
  · decide
  · decide

/-- Claim C6 amended: a post block missing a required sub-element makes
get_tweets raise an uncaught exception at that post: the posts before it
are the only ones emitted, the malformed post and every post after it are
dropped, and the whole batch (and cycle) aborts. -/
theorem c6_amended_missing_element_aborts (htmlToText : String → String)
    (pre : List TweetPost) (bad : TweetPost) (rest : List TweetPost)
    (hbad : getTweetItem htmlToText bad = none)
    (hpre : ∀ p ∈ pre, (getTweetItem htmlToText p).isSome = true) :
    getTweets htmlToText (pre ++ bad :: rest)
      = (pre.filterMap (getTweetItem htmlToText), true) := by
  induction pre with
  | nil =>
    simp [getTweets, hbad]
  | cons p ps ih =>
    have hp := hpre p (List.mem_cons_self _ _)
    obtain ⟨item, hitem⟩ := Option.isSome_iff_exists.mp hp
    have hih := ih (fun q hq => hpre q (List.mem_cons_of_mem _ hq))
    simp [List.cons_append, getTweets, hitem, hih, List.filterMap_cons]

/-- Witness for the amended C6: one good post followed by the malformed
post — only the good post is emitted and the batch is flagged aborted. -/
theorem c6_amended_missing_element_aborts_witness :
    getTweets id ([c6Good] ++ c6Bad :: [])
      = ([c6Good].filterMap (getTweetItem id), true) :=
  c6_amended_missing_element_aborts id [c6Good] c6Bad [] (by decide)
    (by decide)

/-! ## Claim C3 -/

/-- Nothing in a cycle's output was already known when the cycle began:
line 265-267's membership test suppresses such items. -/
theorem processItems_fresh (known : List (String × Option String))
    (batch : List StreamItem) :
    ∀ x ∈ (processItems known batch).1, itemId x ∉ known := by
  induction batch generalizing known with
  | nil => simp [processItems]
  | cons i rest ih =>
    by_cases h : itemId i ∈ known
    · simp only [processItems, if_pos h]
      exact ih known
    · simp only [processItems, if_neg h]
      intro x hx
      rcases List.mem_cons.mp hx with rfl | hx'
      · exact h
      · intro hk
        exact ih (itemId i :: known) x hx' (List.mem_cons_of_mem _ hk)

/-- The known set after a cycle is the initial known set plus exactly the
keys of the items the cycle emitted. -/
theorem processItems_known (known : List (String × Option String))
    (batch : List StreamItem) :
    ∀ k, k ∈ (processItems known batch).2 ↔
      k ∈ known ∨ ∃ x ∈ (processItems known batch).1, itemId x = k := by
  induction batch generalizing known with
  | nil => simp [processItems]
  | cons i rest ih =>
    by_cases h : itemId i ∈ known
    · simp only [processItems, if_pos h]
      exact ih known
    · simp only [processItems, if_neg h]
      intro k
      constructor
      · intro hk
        rcases (ih (itemId i :: known) k).mp hk with hk' | ⟨x, hx, hxk⟩
        · rcases List.mem_cons.mp hk' with rfl | hk''
          · exact Or.inr ⟨i, List.mem_cons_self _ _, rfl⟩
          · exact Or.inl hk''
        · exact Or.inr ⟨x, List.mem_cons_of_mem _ hx, hxk⟩
      · intro hk
        apply (ih (itemId i :: known) k).mpr
        rcases hk with hk' | ⟨x, hx, hxk⟩
        · exact Or.inl (List.mem_cons_of_mem _ hk')
        · rcases List.mem_cons.mp hx with rfl | hx'
          · exact Or.inl (by rw [← hxk]; exact List.mem_cons_self _ _)
          · exact Or.inr ⟨x, hx', hxk⟩

/-- No two items of one cycle's output share an identity key. -/
theorem processItems_pairwise (known : List (String × Option String))
    (batch : List StreamItem) :
    (processItems known batch).1.Pairwise (fun x y => itemId x ≠ itemId y) := by
  induction batch generalizing known with
  | nil => simp [processItems]
  | cons i rest ih =>
    by_cases h : itemId i ∈ known
    · simp only [processItems, if_pos h]
      exact ih known
    · simp only [processItems, if_neg h]
      refine List.Pairwise.cons ?_ (ih (itemId i :: known))
      intro y hy he
      exact processItems_fresh (itemId i :: known) rest y hy
        (he ▸ List.mem_cons_self _ _)

/-- Every emitted item is the first element of the batch bearing its key. -/
theorem processItems_first_seen (known : List (String × Option String))
    (batch : List StreamItem) :
    ∀ x ∈ (processItems known batch).1,
      ∃ pre suf, batch = pre ++ x :: suf ∧ ∀ y ∈ pre, itemId y ≠ itemId x := by
  induction batch generalizing known with
  | nil => simp [processItems]
  | cons i rest ih =>
    by_cases h : itemId i ∈ known
    · simp only [processItems, if_pos h]
      intro x hx
      obtain ⟨pre, suf, heq, hpre⟩ := ih known x hx
      refine ⟨i :: pre, suf, by rw [heq]; rfl, ?_⟩
      intro y hy
      rcases List.mem_cons.mp hy with rfl | hy'
      · intro he
        exact processItems_fresh known rest x hx (he ▸ h)
      · exact hpre y hy'
    · simp only [processItems, if_neg h]
      intro x hx
      rcases List.mem_cons.mp hx with rfl | hx'
      · exact ⟨[], rest, rfl, by simp⟩
      · obtain ⟨pre, suf, heq, hpre⟩ := ih (itemId i :: known) x hx'
        refine ⟨i :: pre, suf, by rw [heq]; rfl, ?_⟩
        intro y hy
        rcases List.mem_cons.mp hy with rfl | hy'
        · intro he
          exact processItems_fresh _ rest x hx'
            (by rw [← he]; exact List.mem_cons_self _ _)
        · exact hpre y hy'

/-- Sorting the cycle's items (line 285) only permutes them. -/
theorem sortItems_mem (now : Int) (l : List StreamItem) (x : StreamItem) :
    x ∈ sortItems now l ↔ x ∈ l :=
  (List.perm_insertionSort _ l).mem_iff

/-- Claim C3: an item whose identity key (source, link) is already in the
dedup set — marked in a prior cycle or earlier in the same cycle — is
suppressed: it is never appended to the cycle's output list, hence never
rendered (the sort before printing only permutes the list); within one
batch only the first item bearing a given key is emitted; and the keys
marked after the cycle are the initial ones plus the emitted ones, which
carries the suppression across successive cycles. -/
theorem c3_dedup_suppression (known : List (String × Option String))
    (batch : List StreamItem) :
    (∀ x ∈ (processItems known batch).1, itemId x ∉ known) ∧
    (processItems known batch).1.Pairwise (fun x y => itemId x ≠ itemId y) ∧
    (∀ x ∈ (processItems known batch).1,
      ∃ pre suf, batch = pre ++ x :: suf ∧ ∀ y ∈ pre, itemId y ≠ itemId x) ∧
    (∀ k, k ∈ (processItems known batch).2 ↔
      k ∈ known ∨ ∃ x ∈ (processItems known batch).1, itemId x = k) ∧
    (∀ (now : Int) (x : StreamItem),
      x ∈ sortItems now (processItems known batch).1 → itemId x ∉ known) :=
  ⟨processItems_fresh known batch,
   processItems_pairwise known batch,
   processItems_first_seen known batch,
   processItems_known known batch,
   fun now x hx => processItems_fresh known batch x ((sortItems_mem now _ x).mp hx)⟩

/-! ## Claim C8 -/

/-- Claim C8: after line 285's sort, an item with an absent timestamp is
keyed as "now"; whenever it appears before an explicitly timestamped item
in the sorted list, that item's timestamp is at least now — equivalently,
every item whose timestamp was captured before now (in particular before
process start) comes before all absent-timestamp items. -/
theorem c8_absent_time_sorts_as_now (now t : Int) (l : List StreamItem)
    (i j : Nat) (hi : i < (sortItems now l).length)
    (hj : j < (sortItems now l).length) (hij : i < j)
    (hnone : ((sortItems now l).get ⟨i, hi⟩).time = none)
    (hsome : ((sortItems now l).get ⟨j, hj⟩).time = some t) :
    now ≤ t := by
  have htot : IsTotal StreamItem (fun a b => sortKey now a ≤ sortKey now b) :=
    ⟨fun a b => Int.le_total _ _⟩
  have htra : IsTrans StreamItem (fun a b => sortKey now a ≤ sortKey now b) :=
    ⟨fun a b c hab hbc => le_trans hab hbc⟩
  have hs : List.Sorted (fun a b => sortKey now a ≤ sortKey now b)
      (sortItems now l) :=
    @List.sorted_insertionSort _ _ _ htot htra l
  have hrel := List.Sorted.rel_get_of_lt hs (a := ⟨i, hi⟩) (b := ⟨j, hj⟩)
    (Fin.mk_lt_mk.mpr hij)
  simp only [List.get_eq_getElem] at hnone hsome
  simpa [sortKey, hnone, hsome] using hrel

/-- Witness for C8: with now = 10, the absent-timestamp item sorts before
the item stamped 20, and indeed 10 <= 20. -/
theorem c8_absent_time_sorts_as_now_witness : (10 : Int) ≤ 20 :=
  c8_absent_time_sorts_as_now 10 20 [c8NoTime, c8Late] 0 1 (by decide)
    (by decide) (by decide) (by decide) (by decide)
